import Mathlib

/-!
# Verification of the TASCAR speaker-calibration engine (`calibsession.cc`)

This file gives a shallow embedding, in Lean 4, of the parts of
`src/libtascar/src/calibsession.cc` that the specification's claims are
about, and settles each claim against that embedding.

Modelling conventions:

* C++ `double`/`float` arithmetic is idealised as exact rational (`ℚ`)
  arithmetic.  The transcendental functions `pow(10, ·)` and `log10` do not
  exist on `ℚ`; they are passed as opaque parameters (`p10`, `log10`) together
  with exactly the algebraic hypotheses a statement needs (positivity,
  multiplicativity, left inverse).  The decimal literals `0.05`, `2e-5`,
  `5e4` of the source are exact as rationals.
* `std::vector` becomes `List`; an index-bounded C++ loop
  `for(k = 0; k < n; ++k) v[k] = ...` becomes an operation on `v.take n`
  with the untouched tail `v.drop n` appended (out-of-bounds reads, which
  are undefined behaviour in the source, are modelled with `getD` defaults).
* The audio I/O (moving the source, `usleep`, `jackrec.rec`) is abstracted
  into measurement oracles: functions from speaker index to measured data.
* `std::string` becomes `List Char`; the general `string_token` helper of
  the source is modelled at the single-character delimiters (`','`, `':'`)
  used at its call sites.
-/

namespace Tascar

/-! ## Strings: `string_token` and the `calibfor` grammar

Source: `string_token` (calibsession.cc:44-57), the `calibfor` parsing loop in
the constructor (calibsession.cc:198-206) and the empty-`calibfor` default
(calibsession.cc:168-169).
-/

/-- A C++ `std::string`, modelled as its character list. -/
abbrev Str := List Char

/-- `string_token(s, delim)` of the source: repeatedly find the delimiter,
push the prefix before it, erase through it, and finally push the remainder.
Modelled at the single-character delimiters used by the call sites, where the
loop is exactly `List.splitOn`. -/
def string_token (s : Str) (delim : Char) : List Str :=
  s.splitOn delim

/-- The error message thrown by the constructor on a malformed `calibfor`
token (calibsession.cc:202-204), with the offending attribute value elided. -/
def calibforErr : String := "Invalid format of calibfor attribute"

/-- The body of the `calibfor` parsing loop of the constructor
(calibsession.cc:199-206): each token must split on `':'` into exactly two
parts, which become an attribute `(name, value)` on the `spec` receiver;
otherwise a fatal `ErrMsg` is thrown, abandoning the remaining tokens. -/
def parse_calibfor_loop : List Str → Except String (List (Str × Str))
  | [] => Except.ok []
  | t :: ts =>
    match string_token t ':' with
    | [a, b] =>
      match parse_calibfor_loop ts with
      | Except.ok r => Except.ok ((a, b) :: r)
      | Except.error e => Except.error e
    | _ => Except.error calibforErr

/-- The `calibfor` parsing of the constructor (calibsession.cc:198-206):
split on `','` and run the token loop. -/
def parse_calibfor (s : Str) : Except String (List (Str × Str)) :=
  parse_calibfor_loop (string_token s ',')

/-- Whether an `Except` took the success branch. -/
def exceptOk {ε α : Type} : Except ε α → Bool
  | Except.ok _ => true
  | Except.error _ => false

/-- Decidable equality of `Except` values, so concrete runs can be settled by
`decide`. -/
instance {ε α : Type} [DecidableEq ε] [DecidableEq α] : DecidableEq (Except ε α) := fun a b =>
  match a, b with
  | Except.ok x, Except.ok y =>
    if h : x = y then Decidable.isTrue (by rw [h])
    else Decidable.isFalse (by intro hc; cases hc; exact h rfl)
  | Except.error x, Except.error y =>
    if h : x = y then Decidable.isTrue (by rw [h])
    else Decidable.isFalse (by intro hc; cases hc; exact h rfl)
  | Except.ok _, Except.error _ => Decidable.isFalse (by intro hc; cases hc)
  | Except.error _, Except.ok _ => Decidable.isFalse (by intro hc; cases hc)

/-- The empty-`calibfor` default of the constructor (calibsession.cc:168-169):
`if(calibfor.empty()) calibfor = "type:nsp";`. -/
def effective_calibfor (raw : Str) : Str :=
  if raw = [] then "type:nsp".data else raw

/-- The token loop succeeds iff every token splits at `':'` into exactly two
parts. -/
theorem parse_calibfor_loop_ok_iff (l : List Str) :
    exceptOk (parse_calibfor_loop l) = true ↔
      ∀ t ∈ l, (string_token t ':').length = 2 := by
  induction l with
  | nil => simp [parse_calibfor_loop, exceptOk]
  | cons t ts ih =>
    constructor
    · intro h x hx
      rcases hsp : string_token t ':' with _ | ⟨a, _ | ⟨b, _ | _⟩⟩ <;>
        rw [parse_calibfor_loop, hsp] at h
      case cons.cons.nil =>
        rcases List.mem_cons.mp hx with rfl | hx
        · simp [hsp]
        · rcases hl : parse_calibfor_loop ts with e | r
          · rw [hl] at h; simp [exceptOk] at h
          · exact ih.mp (by simp [hl, exceptOk]) x hx
      all_goals simp [exceptOk] at h
    · intro h
      have ht := h t (by simp)
      have hts : exceptOk (parse_calibfor_loop ts) = true :=
        ih.mpr (fun x hx => h x (by simp [hx]))
      rcases hsp : string_token t ':' with _ | ⟨a, _ | ⟨b, _ | _⟩⟩ <;>
        simp [hsp] at ht
      rcases hl : parse_calibfor_loop ts with e | r
      · simp [hl, exceptOk] at hts
      · simp [parse_calibfor_loop, hsp, hl, exceptOk]

/-- C6: calibration-session construction parses the `calibfor` string as a
comma-separated list of `key:value` pairs and throws a fatal configuration
error exactly when some comma-separated token does not split at `':'` into two
parts; `"type:nsp,order:3"` is accepted, yielding the attributes
`type = nsp` and `order = 3` on the `spec` receiver, while `"badtoken"` makes
construction fail. -/
theorem c6_calibfor_grammar (s : Str) :
    (exceptOk (parse_calibfor s) = true ↔
      ∀ t ∈ string_token s ',', (string_token t ':').length = 2) ∧
    parse_calibfor "type:nsp,order:3".data =
      Except.ok [("type".data, "nsp".data), ("order".data, "3".data)] ∧
    exceptOk (parse_calibfor "badtoken".data) = false :=
  ⟨parse_calibfor_loop_ok_iff _, by decide, by decide⟩

/-- Witness for `c6_calibfor_grammar`: at the concrete input `"a:b"`, the
well-formedness condition of the grammar holds and, by the theorem, parsing
succeeds. -/
theorem c6_calibfor_grammar_witness :
    (∀ t ∈ string_token "a:b".data ',', (string_token t ':').length = 2) ∧
    exceptOk (parse_calibfor "a:b".data) = true :=
  ⟨by decide, (c6_calibfor_grammar "a:b".data).1.mpr (by decide)⟩

/-- C10: when the layout file carries no `calibfor` attribute (the raw string
is empty), construction substitutes the default `"type:nsp"` before parsing,
so parsing succeeds and the `spec` receiver gets the single attribute
`type = nsp`; the empty string is not treated as a malformed-grammar error. -/
theorem c10_empty_calibfor_default :
    effective_calibfor [] = "type:nsp".data ∧
    parse_calibfor (effective_calibfor []) =
      Except.ok [("type".data, "nsp".data)] := by
  constructor
  · decide
  · decide

/-! ## Mute-state machine (C2)

Source: `calibsession_t::set_active` (calibsession.cc:596-618),
`calibsession_t::set_active_diff` (calibsession.cc:620-636), and the mute
switches inside `calibsession_t::get_levels` (calibsession.cc:428-461).
Each operation is modelled as the exact sequence of `set_mute` calls the
source performs, so intermediate states within a transition are visible.
-/

/-- The mute flags of the five mutable audio objects of the calibration
scene: broadband source (`source_objects[0]`), subwoofer source
(`source_objects[1]`), diffuse sound field, and the `nsp` / `spec`
receivers. -/
structure MuteState where
  bbMute : Bool
  subMute : Bool
  diffMute : Bool
  nspMute : Bool
  specMute : Bool
deriving DecidableEq, Fintype

/-- A single `set_mute` call on one of the five objects. -/
inductive MEv : Type
  | srcBB (m : Bool)
  | srcSub (m : Bool)
  | diffuse (m : Bool)
  | recNsp (m : Bool)
  | recSpec (m : Bool)
deriving DecidableEq

/-- Effect of one `set_mute` call. -/
def MEv.apply : MEv → MuteState → MuteState
  | MEv.srcBB m, s => { s with bbMute := m }
  | MEv.srcSub m, s => { s with subMute := m }
  | MEv.diffuse m, s => { s with diffMute := m }
  | MEv.recNsp m, s => { s with nspMute := m }
  | MEv.recSpec m, s => { s with specMute := m }

/-- Run a sequence of `set_mute` calls. -/
def runMute (s : MuteState) (evs : List MEv) : MuteState :=
  evs.foldl (fun s e => e.apply s) s

/-- The `set_mute` calls of `set_active_diff(false)` (calibsession.cc:620-636
with `b = false`): mute the subwoofer source, unmute `nsp`, mute `spec`,
mute the diffuse field. -/
def sad_false_events : List MEv :=
  [MEv.srcSub true, MEv.recNsp false, MEv.recSpec true, MEv.diffuse true]

/-- The `set_mute` calls of `set_active(b)` (calibsession.cc:596-618), in
source order: mute the subwoofer source; if `¬b` unmute `nsp` and mute
`spec`; if `b` run `set_active_diff(false)`; set the broadband source's mute
to `¬b`; if `b` mute `nsp` and unmute `spec`. -/
def sa_events (b : Bool) : List MEv :=
  [MEv.srcSub true] ++
    (if b then [] else [MEv.recNsp false, MEv.recSpec true]) ++
    (if b then sad_false_events else []) ++
    [MEv.srcBB (!b)] ++
    (if b then [MEv.recNsp true, MEv.recSpec false] else [])

/-- The `set_mute` calls of `set_active_diff(b)` (calibsession.cc:620-636), in
source order: mute the subwoofer source; if `¬b` unmute `nsp` and mute
`spec`; if `b` run `set_active(false)`; set the diffuse field's mute to `¬b`;
if `b` mute `nsp` and unmute `spec`. -/
def sad_events (b : Bool) : List MEv :=
  [MEv.srcSub true] ++
    (if b then [] else [MEv.recNsp false, MEv.recSpec true]) ++
    (if b then sa_events false else []) ++
    [MEv.diffuse (!b)] ++
    (if b then [MEv.recNsp true, MEv.recSpec false] else [])

/-- The `set_mute` calls entering the broadband phase of `get_levels`
(calibsession.cc:430-436): mute the subwoofer source, unmute the broadband
source, mute `spec`, unmute `nsp`.  The diffuse field is not touched. -/
def gl_bb_events : List MEv :=
  [MEv.srcSub true, MEv.srcBB false, MEv.recSpec true, MEv.recNsp false]

/-- The `set_mute` calls entering the subwoofer phase of `get_levels`
(calibsession.cc:446-450, only when the layout has subwoofers): mute the
broadband source, unmute the subwoofer source. -/
def gl_sub_events : List MEv :=
  [MEv.srcBB true, MEv.srcSub false]

/-- The `set_mute` calls ending `get_levels` (calibsession.cc:458-461): mute
both point sources. -/
def gl_end_events : List MEv :=
  [MEv.srcBB true, MEv.srcSub true]

/-- The initial state of the synthesized calibration scene
(calibsession.cc:175-210): both sources and the diffuse field are created
with `mute="true"`, the `spec` receiver with `mute="true"`, and the `nsp`
receiver unmuted. -/
def initMuteState : MuteState :=
  { bbMute := true, subMute := true, diffMute := true,
    nspMute := false, specMute := true }

/-- Number of unmuted stimuli (broadband source, subwoofer source, diffuse
field). -/
def stimCount (s : MuteState) : ℕ :=
  (if s.bbMute then 0 else 1) + (if s.subMute then 0 else 1) +
    (if s.diffMute then 0 else 1)

/-- The mute-transition operations of a calibration run. -/
inductive CalOp : Type
  | sa (b : Bool)
  | sad (b : Bool)
  | glBB
  | glSub
  | glEnd
deriving DecidableEq, Fintype

/-- The `set_mute` sequence of each operation. -/
def CalOp.events : CalOp → List MEv
  | CalOp.sa b => sa_events b
  | CalOp.sad b => sad_events b
  | CalOp.glBB => gl_bb_events
  | CalOp.glSub => gl_sub_events
  | CalOp.glEnd => gl_end_events

/-- The guard of the amended claim: the `get_levels` phase switches are only
invoked while the diffuse field is muted (which `get_levels` itself never
changes); `set_active` and `set_active_diff` are unguarded. -/
def CalOp.guardB : CalOp → MuteState → Bool
  | CalOp.glBB, s => s.diffMute
  | CalOp.glSub, s => s.diffMute
  | CalOp.glEnd, s => s.diffMute
  | _, _ => true

/-- All prefixes of an event list: the intermediate states of a transition
are the results of running its prefixes. -/
def prefixes (l : List MEv) : List (List MEv) :=
  (List.range (l.length + 1)).map (fun n => l.take n)

/-- States reachable from the initial scene by guarded mute-transition
operations. -/
inductive ReachM : MuteState → Prop
  | init : ReachM initMuteState
  | step (op : CalOp) {s : MuteState} : ReachM s → op.guardB s = true →
      ReachM (runMute s op.events)

/-- The decidable invariant carried through `ReachM`: at most one stimulus is
unmuted, and every allowed operation keeps at most one stimulus unmuted at
every intermediate `set_mute` step. -/
def muteInv (s : MuteState) : Prop :=
  stimCount s ≤ 1 ∧
    ∀ op : CalOp, op.guardB s = true →
      ∀ pre ∈ prefixes op.events, stimCount (runMute s pre) ≤ 1

instance (s : MuteState) : Decidable (muteInv s) := by
  unfold muteInv; infer_instance

/-- The invariant holds initially and is preserved by every guarded
operation. -/
theorem muteInv_step :
    muteInv initMuteState ∧
      ∀ s : MuteState, muteInv s → ∀ op : CalOp, op.guardB s = true →
        muteInv (runMute s op.events) := by
  decide

/-- C2 (amended): from the initial state, under sequences of `set_active(b)`,
`set_active_diff(b)` and the `get_levels` phase switches in which the
`get_levels` phases are only entered while the diffuse field is muted, every
reachable state has at most one of the three stimuli unmuted, and so does
every intermediate state inside each allowed transition; moreover
`set_active(true)` and `set_active_diff(true)` always end with exactly one
stimulus unmuted, as does the `get_levels` broadband phase when entered with
the diffuse field muted. -/
theorem c2_mute_exclusion (s : MuteState) (h : ReachM s) :
    (stimCount s ≤ 1 ∧
      ∀ op : CalOp, op.guardB s = true →
        ∀ pre ∈ prefixes op.events, stimCount (runMute s pre) ≤ 1) ∧
    stimCount (runMute s (sa_events true)) = 1 ∧
    stimCount (runMute s (sad_events true)) = 1 ∧
    (s.diffMute = true → stimCount (runMute s gl_bb_events) = 1) := by
  have hinv : muteInv s := by
    induction h with
    | init => exact muteInv_step.1
    | step op hs hg ih => exact muteInv_step.2 _ ih op hg
  refine ⟨hinv, ?_, ?_, ?_⟩
  · clear hinv h; revert s; decide
  · clear hinv h; revert s; decide
  · clear hinv h; revert s; decide

/-- Witness for `c2_mute_exclusion`: the theorem applied to the initial state,
whose reachability is immediate. -/
theorem c2_mute_exclusion_witness :
    (stimCount initMuteState ≤ 1 ∧
      ∀ op : CalOp, op.guardB initMuteState = true →
        ∀ pre ∈ prefixes op.events,
          stimCount (runMute initMuteState pre) ≤ 1) ∧
    stimCount (runMute initMuteState (sa_events true)) = 1 ∧
    stimCount (runMute initMuteState (sad_events true)) = 1 ∧
    (initMuteState.diffMute = true →
      stimCount (runMute initMuteState gl_bb_events) = 1) :=
  c2_mute_exclusion initMuteState ReachM.init

/-- Counterexample to C2 as stated: the unrestricted operation sequence
`set_active_diff(true)` followed by the broadband phase of `get_levels`
(which never mutes the diffuse field) reaches a state in which both the
diffuse field and the broadband source are unmuted simultaneously. -/
theorem c2_counterexample :
    stimCount (runMute initMuteState (sad_events true ++ gl_bb_events)) = 2 ∧
    (runMute initMuteState (sad_events true ++ gl_bb_events)).bbMute = false ∧
    (runMute initMuteState (sad_events true ++ gl_bb_events)).diffMute
      = false := by
  decide

/-! ## Gain normalization in `get_levels` (C1)

Source: the "convert levels into gains" part of `calibsession_t::get_levels`
(calibsession.cc:463-487).  `p10 : ℚ → ℚ` stands for the real function
`x ↦ pow(10, x)`; the source always applies it to `0.05 * (...)`.
-/

/-- `lmin` as computed by the source (calibsession.cc:464-471):
`lmin = levels[0]` then `lmin = std::min(l, lmin)` over all entries
(`levels[0]` of an empty vector is undefined behaviour; the model reads 0). -/
def cppMinInit (levels : List ℚ) : ℚ :=
  levels.foldl (fun a l => min l a) (levels.headD 0)

/-- The multiplicative gain loop (calibsession.cc:476-479):
`for(k < levels.size()) gain[k] *= pow(10, 0.05*(lmin - levels[k]))`; entries
of `gains` beyond `levels.length` are untouched. -/
def gainMulLoop (p10 : ℚ → ℚ) (lmin : ℚ) (levels gains : List ℚ) : List ℚ :=
  List.zipWith (fun g l => g * p10 (0.05 * (lmin - l))) gains levels ++
    gains.drop levels.length

/-- The max-gain loop (calibsession.cc:481-483): `double lmax(0);`
`for(k < n) lmax = std::max(lmax, gain[k])`. -/
def gainMaxLoop (n : ℕ) (gains : List ℚ) : ℚ :=
  (gains.take n).foldl max 0

/-- The normalization loop (calibsession.cc:484-487):
`for(k < n) gain[k] /= lmax`; entries beyond `n` are untouched. -/
def gainDivLoop (n : ℕ) (m : ℚ) (gains : List ℚ) : List ℚ :=
  (gains.take n).map (fun g => g / m) ++ gains.drop n

/-- The whole per-receiver gain update of `get_levels`
(calibsession.cc:474-487): multiply broadband gains by
`pow(10, 0.05*(lmin - levels[k]))` and subwoofer gains by
`pow(10, 0.05*(lmin - sublevels[k]))`, then divide both by the maximum
broadband gain. -/
def gain_update (p10 : ℚ → ℚ) (levels sublevels gains subgains : List ℚ) :
    List ℚ × List ℚ :=
  let lmin := cppMinInit levels
  let g1 := gainMulLoop p10 lmin levels gains
  let s1 := gainMulLoop p10 lmin sublevels subgains
  let m := gainMaxLoop levels.length g1
  (gainDivLoop levels.length m g1, gainDivLoop sublevels.length m s1)

/-- The maximum broadband gain used as the normalization divisor, for initial
gains all 1. -/
def bbPreMax (p10 : ℚ → ℚ) (levels : List ℚ) : ℚ :=
  gainMaxLoop levels.length
    (gainMulLoop p10 (cppMinInit levels) levels
      (List.replicate levels.length 1))

/-- Broadband gains after the `get_levels` gain update, for initial gains
all 1. -/
def bbGainsOut (p10 : ℚ → ℚ) (levels sublevels subgains : List ℚ) : List ℚ :=
  (gain_update p10 levels sublevels (List.replicate levels.length 1)
    subgains).1

/-- Subwoofer gains after the `get_levels` gain update, for initial broadband
gains all 1. -/
def subGainsOut (p10 : ℚ → ℚ) (levels sublevels subgains : List ℚ) :
    List ℚ :=
  (gain_update p10 levels sublevels (List.replicate levels.length 1)
    subgains).2

theorem le_foldl_max (l : List ℚ) (a : ℚ) : a ≤ l.foldl max a := by
  induction l generalizing a with
  | nil => exact le_rfl
  | cons x l ih => exact le_trans (le_max_left a x) (ih (max a x))

theorem mem_le_foldl_max {x : ℚ} {l : List ℚ} (hx : x ∈ l) (a : ℚ) :
    x ≤ l.foldl max a := by
  induction l generalizing a with
  | nil => cases hx
  | cons y l ih =>
    rcases List.mem_cons.mp hx with rfl | hx
    · exact le_trans (le_max_right a x) (le_foldl_max l (max a x))
    · exact ih hx (max a y)

theorem foldl_max_choice (l : List ℚ) (a : ℚ) :
    l.foldl max a = a ∨ l.foldl max a ∈ l := by
  induction l generalizing a with
  | nil => exact Or.inl rfl
  | cons x l ih =>
    rcases ih (max a x) with h | h
    · rcases max_choice a x with hm | hm
      · exact Or.inl (by rw [List.foldl_cons, h, hm])
      · exact Or.inr (by rw [List.foldl_cons, h, hm]; exact List.mem_cons_self x l)
    · exact Or.inr (List.mem_cons_of_mem x h)

theorem foldl_max_map_div (l : List ℚ) (a m : ℚ) (hm : 0 < m) :
    (l.map (fun x => x / m)).foldl max (a / m) = l.foldl max a / m := by
  induction l generalizing a with
  | nil => rfl
  | cons x l ih =>
    have hmax : max (a / m) (x / m) = max a x / m := by
      rcases le_total a x with h | h
      · rw [max_eq_right h,
          max_eq_right ((div_le_div_iff_of_pos_right hm).mpr h)]
      · rw [max_eq_left h,
          max_eq_left ((div_le_div_iff_of_pos_right hm).mpr h)]
    simp only [List.map_cons, List.foldl_cons, hmax, ih (max a x)]

theorem getD_map_lt (f : ℚ → ℚ) :
    ∀ (l : List ℚ) (k : ℕ), k < l.length →
      (l.map f).getD k 0 = f (l.getD k 0)
  | [], k, hk => absurd hk (by simp)
  | x :: l, 0, _ => rfl
  | x :: l, k + 1, hk => by
    simp only [List.map_cons, List.getD_cons_succ]
    exact getD_map_lt f l k (by simpa using hk)

theorem zipWith_replicate_left (f : ℚ → ℚ → ℚ) (c : ℚ) :
    ∀ l : List ℚ,
      List.zipWith f (List.replicate l.length c) l = l.map (f c)
  | [] => rfl
  | x :: l => by
    simp only [List.length_cons, List.replicate_succ, List.zipWith_cons_cons,
      List.map_cons, zipWith_replicate_left f c l]

/-- With all initial gains 1, the multiplicative loop yields exactly
`p10 (0.05*(lmin - levels[k]))` per speaker. -/
theorem gainMulLoop_replicate (p10 : ℚ → ℚ) (levels : List ℚ) :
    gainMulLoop p10 (cppMinInit levels) levels
        (List.replicate levels.length 1) =
      levels.map (fun l => p10 (0.05 * (cppMinInit levels - l))) := by
  unfold gainMulLoop
  rw [zipWith_replicate_left]
  simp

/-- The normalization divisor, as the plain maximum (with initial value 0) of
the pre-normalization broadband gains. -/
theorem bbPreMax_eq (p10 : ℚ → ℚ) (levels : List ℚ) :
    bbPreMax p10 levels =
      (levels.map
        (fun l => p10 (0.05 * (cppMinInit levels - l)))).foldl max 0 := by
  unfold bbPreMax gainMaxLoop
  rw [gainMulLoop_replicate]
  have hlen : (levels.map
      (fun l => p10 (0.05 * (cppMinInit levels - l)))).length =
      levels.length := by simp
  rw [← hlen, List.take_length]

/-- With all initial gains 1 and a nonempty level vector, the updated
broadband gains are exactly `p10 (0.05*(lmin - levels[k])) / bbPreMax`. -/
theorem bbGainsOut_eq (p10 : ℚ → ℚ) (levels sublevels subgains : List ℚ) :
    bbGainsOut p10 levels sublevels subgains =
      levels.map (fun l =>
        p10 (0.05 * (cppMinInit levels - l)) / bbPreMax p10 levels) := by
  unfold bbGainsOut gain_update
  simp only
  rw [show gainMaxLoop levels.length
      (gainMulLoop p10 (cppMinInit levels) levels
        (List.replicate levels.length 1)) = bbPreMax p10 levels from rfl]
  rw [gainMulLoop_replicate]
  unfold gainDivLoop
  have hlen : (levels.map
      (fun l => p10 (0.05 * (cppMinInit levels - l)))).length =
      levels.length := by simp
  rw [← hlen, List.take_length, List.drop_length, List.append_nil,
    List.map_map]
  rfl

/-- The normalization divisor is positive when levels are nonempty and `p10`
is positive. -/
theorem bbPreMax_pos (p10 : ℚ → ℚ) (hpos : ∀ x, 0 < p10 x)
    (levels : List ℚ) (hne : levels ≠ []) : 0 < bbPreMax p10 levels := by
  rw [bbPreMax_eq]
  rcases levels with _ | ⟨l0, ls⟩
  · exact absurd rfl hne
  · refine lt_of_lt_of_le (hpos (0.05 * (cppMinInit (l0 :: ls) - l0)))
      (mem_le_foldl_max ?_ 0)
    exact List.mem_map_of_mem _ (List.mem_cons_self l0 ls)

/-- With matching subwoofer vector lengths, the updated subwoofer gains are
the multiplied gains divided by the broadband maximum. -/
theorem subGainsOut_eq (p10 : ℚ → ℚ) (levels sublevels subgains : List ℚ)
    (hsub : subgains.length = sublevels.length) :
    subGainsOut p10 levels sublevels subgains =
      (List.zipWith (fun g l => g * p10 (0.05 * (cppMinInit levels - l)))
        subgains sublevels).map (fun g => g / bbPreMax p10 levels) := by
  unfold subGainsOut gain_update
  simp only
  rw [show gainMaxLoop levels.length
      (gainMulLoop p10 (cppMinInit levels) levels
        (List.replicate levels.length 1)) = bbPreMax p10 levels from rfl]
  unfold gainMulLoop gainDivLoop
  rw [← hsub, List.drop_length, List.append_nil]
  have hzlen : (List.zipWith
      (fun g l => g * p10 (0.05 * (cppMinInit levels - l)))
      subgains sublevels).length = sublevels.length := by
    rw [List.length_zipWith, hsub, min_self]
  rw [← hsub] at hzlen
  rw [← hzlen, List.take_length, List.drop_length, List.append_nil]

theorem div_div_cancel_denom (x y m : ℚ) (hy : y ≠ 0) (hm : m ≠ 0) :
    (x / m) / (y / m) = x / y := by
  field_simp

/-- C1: for a nonempty level vector and all initial gains 1, the `get_levels`
gain update multiplies each broadband gain by
`p10 (0.05*(lmin - levels[k]))` and each subwoofer gain by
`p10 (0.05*(lmin - sublevels[k]))`, then divides both by the maximum
broadband gain; afterwards the broadband maximum is exactly 1 (attained by
some speaker, with every gain at most 1), and the ratio of any two broadband
gains is `p10 (0.05*(levels[j] - levels[k]))`, i.e.
`10^((L_j - L_k)/20)`. -/
theorem c1_gain_normalization (p10 : ℚ → ℚ)
    (hpos : ∀ x, 0 < p10 x)
    (hmul : ∀ a b, p10 (a + b) = p10 a * p10 b)
    (levels sublevels subgains : List ℚ)
    (hne : levels ≠ []) (hsub : subgains.length = sublevels.length) :
    bbGainsOut p10 levels sublevels subgains =
      levels.map (fun l =>
        p10 (0.05 * (cppMinInit levels - l)) / bbPreMax p10 levels) ∧
    subGainsOut p10 levels sublevels subgains =
      (List.zipWith (fun g l => g * p10 (0.05 * (cppMinInit levels - l)))
        subgains sublevels).map (fun g => g / bbPreMax p10 levels) ∧
    (bbGainsOut p10 levels sublevels subgains).foldl max 0 = 1 ∧
    (∃ g ∈ bbGainsOut p10 levels sublevels subgains, g = 1) ∧
    (∀ g ∈ bbGainsOut p10 levels sublevels subgains, g ≤ 1) ∧
    (∀ j k : ℕ, j < levels.length → k < levels.length →
      (bbGainsOut p10 levels sublevels subgains).getD k 0 /
          (bbGainsOut p10 levels sublevels subgains).getD j 0 =
        p10 (0.05 * (levels.getD j 0 - levels.getD k 0))) := by
  have hM : 0 < bbPreMax p10 levels := bbPreMax_pos p10 hpos levels hne
  have hM0 : bbPreMax p10 levels ≠ 0 := hM.ne'
  have hfold : (bbGainsOut p10 levels sublevels subgains).foldl max 0 = 1 := by
    rw [bbGainsOut_eq]
    have hmm : levels.map (fun l =>
        p10 (0.05 * (cppMinInit levels - l)) / bbPreMax p10 levels) =
        (levels.map (fun l => p10 (0.05 * (cppMinInit levels - l)))).map
          (fun x => x / bbPreMax p10 levels) := by
      rw [List.map_map]
      rfl
    rw [hmm]
    have h0 : (0 : ℚ) = 0 / bbPreMax p10 levels := (zero_div _).symm
    rw [h0, foldl_max_map_div _ _ _ hM, ← bbPreMax_eq, div_self hM0]
  refine ⟨bbGainsOut_eq p10 levels sublevels subgains,
    subGainsOut_eq p10 levels sublevels subgains hsub, hfold, ?_, ?_, ?_⟩
  · rcases foldl_max_choice (bbGainsOut p10 levels sublevels subgains) 0
      with h | h
    · rw [hfold] at h; norm_num at h
    · rw [hfold] at h; exact ⟨1, h, rfl⟩
  · intro g hg
    rw [← hfold]
    exact mem_le_foldl_max hg 0
  · intro j k hj hk
    rw [bbGainsOut_eq, getD_map_lt _ levels k hk, getD_map_lt _ levels j hj]
    have hPj : p10 (0.05 * (cppMinInit levels - levels.getD j 0)) ≠ 0 :=
      (hpos _).ne'
    rw [div_div_cancel_denom _ _ _ hPj hM0]
    have harg : 0.05 * (cppMinInit levels - levels.getD k 0) =
        0.05 * (levels.getD j 0 - levels.getD k 0) +
          0.05 * (cppMinInit levels - levels.getD j 0) := by ring
    rw [harg, hmul, mul_div_assoc, div_self hPj, mul_one]

/-- Witness for `c1_gain_normalization` at `p10 = const 1`,
`levels = [70, 72, 68, 71]`, `sublevels = [60]`, `subgains = [1]`. -/
theorem c1_gain_normalization_witness :
    ((∀ x : ℚ, 0 < (fun _ : ℚ => (1 : ℚ)) x) ∧
      (∀ a b : ℚ, (fun _ : ℚ => (1 : ℚ)) (a + b) =
        (fun _ : ℚ => (1 : ℚ)) a * (fun _ : ℚ => (1 : ℚ)) b) ∧
      ([70, 72, 68, 71] : List ℚ) ≠ [] ∧
      ([(1 : ℚ)] : List ℚ).length = ([60] : List ℚ).length) ∧
    ((bbGainsOut (fun _ => 1) [70, 72, 68, 71] [60] [1]).foldl max 0 = 1 ∧
      (∀ j k : ℕ, j < ([70, 72, 68, 71] : List ℚ).length →
        k < ([70, 72, 68, 71] : List ℚ).length →
        (bbGainsOut (fun _ => 1) [70, 72, 68, 71] [60] [1]).getD k 0 /
            (bbGainsOut (fun _ => 1) [70, 72, 68, 71] [60] [1]).getD j 0 =
          (fun _ : ℚ => (1 : ℚ))
            (0.05 * (([70, 72, 68, 71] : List ℚ).getD j 0 -
              ([70, 72, 68, 71] : List ℚ).getD k 0)))) := by
  have h := c1_gain_normalization (fun _ => 1) (fun _ => by norm_num)
    (fun _ _ => by norm_num) [70, 72, 68, 71] [60] [1] (by decide) (by decide)
  exact ⟨⟨fun _ => by norm_num, fun _ _ => by norm_num, by decide, by decide⟩,
    h.2.2.1, h.2.2.2.2.2⟩

/-! ## Calibration-session state (C3, C7, C8, C9)

Source: the members of `calibsession_t` mutated by `reset_levels`
(calibsession.cc:267-280), the gain/EQ update of `get_levels`
(calibsession.cc:423-521), `saveas`/`save` (calibsession.cc:523-594),
`get_caliblevel`/`get_diffusegain` (calibsession.cc:638-646) and
`inc_caliblevel`/`inc_diffusegain` (calibsession.cc:648-664).
`p10` models `x ↦ pow(10, x)` and `log10` models `log10`; the session's
checksum and timestamp attributes and the EQ filter coefficients produced by
`optim_response` are abstracted away.
-/

/-- Per-speaker state mutated by the calibration engine
(`spk_descriptor_t`): gain and the stored equalizer grid. -/
structure SpkState where
  gain : ℚ
  eqfreq : List ℚ
  eqgain : List ℚ
  eqstages : ℕ
deriving DecidableEq

/-- Default speaker descriptor, used only for modelled out-of-bounds reads
(undefined behaviour in the source). -/
def defaultSpk : SpkState :=
  { gain := 1, eqfreq := [], eqgain := [], eqstages := 0 }

/-- The calibration-relevant state of one receiver
(`receivermod_base_speaker_t` plus the `caliblevel`/`diffusegain` members of
the receiver object): broadband speakers, subwoofers, calibration level (in
pascals) and diffuse gain (linear). -/
structure RecvState where
  spk : List SpkState
  subs : List SpkState
  caliblevel : ℚ
  diffusegain : ℚ
deriving DecidableEq

/-- The mutable state of `calibsession_t` that the claims are about. -/
structure CalibSession where
  nsp : RecvState
  spec : RecvState
  levels : List ℚ
  sublevels : List ℚ
  levelsfrg : List ℚ
  sublevelsfrg : List ℚ
  delta : ℚ
  delta_diff : ℚ
  startlevel : ℚ
  startdiffgain : ℚ
  fcomp_bb : ℕ
  fcomp_sub : ℕ
  gainmodified : Bool
  levelsrecorded : Bool
  calibrated : Bool
  calibrated_diff : Bool
  spkname : String
  calibfor : Str
  spkFileGains : List ℚ
deriving DecidableEq

/-- `get_caliblevel` (calibsession.cc:638-641):
`20 * log10(rec_spec->caliblevel * 5e4)`. -/
def get_caliblevel (log10 : ℚ → ℚ) (s : CalibSession) : ℚ :=
  20 * log10 (s.spec.caliblevel * 5e4)

/-- `get_diffusegain` (calibsession.cc:643-646):
`20 * log10(rec_spec->diffusegain)`. -/
def get_diffusegain (log10 : ℚ → ℚ) (s : CalibSession) : ℚ :=
  20 * log10 s.spec.diffusegain

/-- `inc_caliblevel` (calibsession.cc:648-655): accumulate the delta and set
both receivers' level to `2e-5 * pow(10, 0.05*(startlevel + delta))`. -/
def inc_caliblevel (p10 : ℚ → ℚ) (dl : ℚ) (s : CalibSession) :
    CalibSession :=
  let delta := s.delta + dl
  let newlevel_pa := 2e-5 * p10 (0.05 * (s.startlevel + delta))
  { s with
    gainmodified := true
    delta := delta
    nsp := { s.nsp with caliblevel := newlevel_pa }
    spec := { s.spec with caliblevel := newlevel_pa } }

/-- `inc_diffusegain` (calibsession.cc:657-664): accumulate the delta and set
both receivers' diffuse gain to `pow(10, 0.05*(startdiffgain + delta))`. -/
def inc_diffusegain (p10 : ℚ → ℚ) (dl : ℚ) (s : CalibSession) :
    CalibSession :=
  let delta_diff := s.delta_diff + dl
  let gain := p10 (0.05 * (s.startdiffgain + delta_diff))
  { s with
    gainmodified := true
    delta_diff := delta_diff
    nsp := { s.nsp with diffusegain := gain }
    spec := { s.spec with diffusegain := gain } }

/-- The per-receiver body of `reset_levels` (calibsession.cc:274-279):
`for(k < levels.size()) spkpos[k].gain = 1` and likewise for subwoofers. -/
def reset_levels_recv (nlev nsub : ℕ) (r : RecvState) : RecvState :=
  { r with
    spk := r.spk.mapIdx (fun k sp =>
      if k < nlev then { sp with gain := 1 } else sp)
    subs := r.subs.mapIdx (fun k sp =>
      if k < nsub then { sp with gain := 1 } else sp) }

/-- `reset_levels` (calibsession.cc:267-280): clear `levelsrecorded`, zero
the band-spread diagnostics, and reset all gains of both receivers to 1. -/
def reset_levels (s : CalibSession) : CalibSession :=
  { s with
    levelsrecorded := false
    levelsfrg := s.levelsfrg.map (fun _ => 0)
    sublevelsfrg := s.sublevelsfrg.map (fun _ => 0)
    nsp := reset_levels_recv s.levels.length s.sublevels.length s.nsp
    spec := reset_levels_recv s.levels.length s.sublevels.length s.spec }

/-- The broadband EQ-field update of `get_levels` (calibsession.cc:488-503):
per speaker, store the grid and `fcomp_bb` when it is nonzero, otherwise
clear the grid; `eqstages` is set to `fcomp_bb` either way. -/
def eqUpdateSpk (fc : ℕ) (vF : List ℚ) (vG : ℕ → List ℚ)
    (spk : List SpkState) : List SpkState :=
  spk.mapIdx (fun k sp =>
    if fc ≠ 0 then { sp with eqfreq := vF, eqgain := vG k, eqstages := fc }
    else { sp with eqfreq := [], eqgain := [], eqstages := fc })

/-- The subwoofer EQ-field update of `get_levels` (calibsession.cc:504-518).
The source declares a counter `k` for this loop but never increments it, so
every subwoofer receives the gain grid of index 0. -/
def eqUpdateSub (fc : ℕ) (vF : List ℚ) (vG : ℕ → List ℚ)
    (subs : List SpkState) : List SpkState :=
  subs.map (fun sp =>
    if fc ≠ 0 then { sp with eqfreq := vF, eqgain := vG 0, eqstages := fc }
    else { sp with eqfreq := [], eqgain := [], eqstages := fc })

/-- The per-receiver gain/EQ update of `get_levels`
(calibsession.cc:474-519): apply `gain_update` to the receiver's gains, then
the EQ-field updates. -/
def get_levels_recv (p10 : ℚ → ℚ) (levels sublevels : List ℚ)
    (fcbb fcsub : ℕ) (vF vFsub : List ℚ) (vG vGsub : ℕ → List ℚ)
    (r : RecvState) : RecvState :=
  let pair := gain_update p10 levels sublevels
    (r.spk.map (fun sp => sp.gain)) (r.subs.map (fun sp => sp.gain))
  let spk2 := List.zipWith (fun sp g => { sp with gain := g }) r.spk pair.1
  let subs2 := List.zipWith (fun sp g => { sp with gain := g }) r.subs pair.2
  { r with
    spk := eqUpdateSpk fcbb vF vG spk2
    subs := eqUpdateSub fcsub vFsub vGsub subs2 }

/-- The state change of one `get_levels` call (calibsession.cc:423-521).
The audio measurement is abstracted into oracles: `mf`/`msub` give the
measured level of each (sub)speaker, `mfrg`/`msubfrg` the band-spread
diagnostics, `fcbb`/`fcsub` the stage counts returned by `get_fresp_`, and
`vF`/`vG` (and the sub variants) the measured band grids.  The subwoofer
phase only runs when the layout has subwoofers. -/
def op_get_levels (p10 : ℚ → ℚ) (mf msub mfrg msubfrg : ℕ → ℚ)
    (fcbb fcsub : ℕ) (vF vFsub : List ℚ) (vG vGsub : ℕ → List ℚ)
    (s : CalibSession) : CalibSession :=
  let levels := (List.range s.nsp.spk.length).map mf
  let levelsfrg := (List.range s.nsp.spk.length).map mfrg
  let subsEmpty := s.nsp.subs.isEmpty
  let sublevels := if subsEmpty then s.sublevels
    else (List.range s.nsp.subs.length).map msub
  let sublevelsfrg := if subsEmpty then s.sublevelsfrg
    else (List.range s.nsp.subs.length).map msubfrg
  let effFcsub := if subsEmpty then s.fcomp_sub else fcsub
  { s with
    levels := levels
    levelsfrg := levelsfrg
    sublevels := sublevels
    sublevelsfrg := sublevelsfrg
    fcomp_bb := fcbb
    fcomp_sub := effFcsub
    nsp := get_levels_recv p10 levels sublevels fcbb effFcsub
      vF vFsub vG vGsub s.nsp
    spec := get_levels_recv p10 levels sublevels fcbb effFcsub
      vF vFsub vG vGsub s.spec
    levelsrecorded := true }

/-- The mutating operations of the calibration session listed by C9. -/
inductive COp : Type
  | reset_levels
  | get_levels (mf msub mfrg msubfrg : ℕ → ℚ) (fcbb fcsub : ℕ)
      (vF vFsub : List ℚ) (vG vGsub : ℕ → List ℚ)
  | inc_caliblevel (dl : ℚ)
  | inc_diffusegain (dl : ℚ)

/-- Apply one operation. -/
def COp.apply (p10 : ℚ → ℚ) : COp → CalibSession → CalibSession
  | COp.reset_levels, s => Tascar.reset_levels s
  | COp.get_levels mf msub mfrg msubfrg fcbb fcsub vF vFsub vG vGsub, s =>
    op_get_levels p10 mf msub mfrg msubfrg fcbb fcsub vF vFsub vG vGsub s
  | COp.inc_caliblevel dl, s => Tascar.inc_caliblevel p10 dl s
  | COp.inc_diffusegain dl, s => Tascar.inc_diffusegain p10 dl s

/-- Run a sequence of operations. -/
def runCOps (p10 : ℚ → ℚ) (ops : List COp) (s : CalibSession) :
    CalibSession :=
  ops.foldl (fun s op => op.apply p10 s) s

/-- C9: if the `nsp` and `spec` receivers start in identical state, with
speaker and subwoofer counts matching the level vectors' lengths, then any
sequence of `reset_levels`, `get_levels` updates, `inc_caliblevel` and
`inc_diffusegain` leaves them in identical state: per-speaker gains and EQ
fields, `caliblevel` and `diffusegain` all remain pairwise equal. -/
theorem c9_lockstep (p10 : ℚ → ℚ) (ops : List COp) (s : CalibSession)
    (h : s.nsp = s.spec)
    (hlen : s.levels.length = s.nsp.spk.length)
    (hslen : s.sublevels.length = s.nsp.subs.length) :
    (runCOps p10 ops s).nsp = (runCOps p10 ops s).spec := by
  clear hlen hslen
  induction ops generalizing s with
  | nil => exact h
  | cons op ops ih =>
    rw [runCOps, List.foldl_cons, ← runCOps]
    refine ih _ ?_
    cases op <;>
      simp [COp.apply, Tascar.reset_levels, op_get_levels,
        Tascar.inc_caliblevel, Tascar.inc_diffusegain, h]

/-- Sample receiver state used by concrete witnesses. -/
def sampleRecv : RecvState :=
  { spk := [defaultSpk], subs := [], caliblevel := 1, diffusegain := 1 }

/-- Sample session state used by concrete witnesses: one broadband speaker,
no subwoofers, zero accumulated deltas. -/
def sampleSession : CalibSession :=
  { nsp := sampleRecv
    spec := sampleRecv
    levels := [0]
    sublevels := []
    levelsfrg := [0]
    sublevelsfrg := []
    delta := 0
    delta_diff := 0
    startlevel := 80
    startdiffgain := 0
    fcomp_bb := 0
    fcomp_sub := 0
    gainmodified := false
    levelsrecorded := false
    calibrated := false
    calibrated_diff := false
    spkname := "layout.spk"
    calibfor := "type:nsp".data
    spkFileGains := [1] }

/-- Witness for `c9_lockstep`: the sample session with equal receivers,
after a level increment and a gain reset. -/
theorem c9_lockstep_witness :
    (sampleSession.nsp = sampleSession.spec ∧
      sampleSession.levels.length = sampleSession.nsp.spk.length ∧
      sampleSession.sublevels.length = sampleSession.nsp.subs.length) ∧
    (runCOps (fun _ => 1) [COp.inc_caliblevel 3, COp.reset_levels]
        sampleSession).nsp =
      (runCOps (fun _ => 1) [COp.inc_caliblevel 3, COp.reset_levels]
        sampleSession).spec :=
  ⟨⟨rfl, rfl, rfl⟩,
    c9_lockstep (fun _ => 1) [COp.inc_caliblevel 3, COp.reset_levels]
      sampleSession rfl rfl rfl⟩

/-- C7: with zero accumulated delta, `inc_caliblevel(d1)` then
`inc_caliblevel(d2)` makes `get_caliblevel()` return
`startlevel + d1 + d2` exactly (in the idealised real arithmetic), because
`2e-5 * 5e4 = 1` and `log10` inverts `pow(10, ·)`. -/
theorem c7_caliblevel_roundtrip (p10 log10 : ℚ → ℚ)
    (hinv : ∀ x, log10 (p10 x) = x) (s : CalibSession) (hd : s.delta = 0)
    (d1 d2 : ℚ) :
    get_caliblevel log10 (inc_caliblevel p10 d2 (inc_caliblevel p10 d1 s)) =
      s.startlevel + d1 + d2 := by
  simp only [inc_caliblevel, get_caliblevel]
  have hc : ∀ x : ℚ, (2e-5 : ℚ) * x * 5e4 = x := fun x => by ring
  rw [hc, hinv, hd]
  ring

/-- Witness for `c7_caliblevel_roundtrip` at `p10 = log10 = id` and the
sample session. -/
theorem c7_caliblevel_roundtrip_witness :
    ((∀ x : ℚ, (fun y : ℚ => y) ((fun y : ℚ => y) x) = x) ∧
      sampleSession.delta = 0) ∧
    get_caliblevel (fun y => y)
        (inc_caliblevel (fun y => y) 3
          (inc_caliblevel (fun y => y) 2 sampleSession)) =
      sampleSession.startlevel + 2 + 3 :=
  ⟨⟨fun _ => rfl, rfl⟩,
    c7_caliblevel_roundtrip (fun y => y) (fun y => y) (fun _ => rfl)
      sampleSession rfl 2 3⟩

/-! ## Persistence: `saveas` and `save` (C3, C8)

Source: `calibsession_t::saveas` (calibsession.cc:523-589) and
`calibsession_t::save` (calibsession.cc:591-594).  `rootName` is the root
element name of the re-opened original layout file (`spkname`), and
`nDeclSpk`/`nDeclSub` are the numbers of `speaker`/`sub` children declared in
it; the layout checksum and the calibration date stamp are abstracted away.
-/

/-- The attribute values of the layout document written by `saveas`. -/
structure SavedDoc where
  caliblevelAttr : ℚ
  diffusegainAttr : ℚ
  speakerGains : List ℚ
  speakerEqstages : ℕ
  subGains : List ℚ
  subEqstages : ℕ
  calibforAttr : Str
  path : String
deriving DecidableEq

/-- The error thrown by `saveas` on a wrong root element
(calibsession.cc:534-537). -/
def saveas_errmsg (rootName : String) : String :=
  "Invalid file type, expected root node type layout, got " ++ rootName

/-- The per-speaker gain attributes written by `saveas`
(calibsession.cc:544-547 and 559-563): for each declared child `k`,
`20 * log10(spk_spec->spkpos[min(k, size-1)].gain)`. -/
def spkGainAttr (log10 : ℚ → ℚ) (spk : List SpkState) (n : ℕ) : List ℚ :=
  (List.range n).map (fun k =>
    20 * log10 ((spk.getD (min k (spk.length - 1)) defaultSpk).gain))

/-- The gain vector computed at the start of `saveas`
(calibsession.cc:525-531) from the gains of the layout file's own speaker
array (`spk_file`): `20*log10((*spk_file)[k].gain) + lmin - levels[k]`.
The source never uses this vector (dead code); it is also exactly the
formula the claim asserts for the written per-speaker gain attributes. -/
def saveas_deadGains (log10 : ℚ → ℚ) (fileGains levels : List ℚ) : List ℚ :=
  (List.range levels.length).map (fun k =>
    20 * log10 (fileGains.getD k 1) + cppMinInit levels - levels.getD k 0)

/-- `saveas` (calibsession.cc:523-589): compute the (unused) gain vector,
check the root element of the re-opened original layout, and on success write
the calibration attributes and clear the four validity flags.  The error is
thrown before any member or file mutation, so the error branch returns the
session unchanged and produces no document. -/
def saveas (log10 : ℚ → ℚ) (rootName : String) (nDeclSpk nDeclSub : ℕ)
    (fname : String) (s : CalibSession) :
    CalibSession × Except String SavedDoc :=
  let _deadGains := saveas_deadGains log10 s.spkFileGains s.levels
  if rootName ≠ "layout" then
    (s, Except.error (saveas_errmsg rootName))
  else
    ({ s with
        gainmodified := false
        levelsrecorded := false
        calibrated := false
        calibrated_diff := false },
      Except.ok
        { caliblevelAttr := get_caliblevel log10 s
          diffusegainAttr := get_diffusegain log10 s
          speakerGains := spkGainAttr log10 s.spec.spk nDeclSpk
          speakerEqstages := s.fcomp_bb
          subGains := spkGainAttr log10 s.spec.subs nDeclSub
          subEqstages := s.fcomp_sub
          calibforAttr := s.calibfor
          path := fname })

/-- `save` (calibsession.cc:591-594): `saveas(spkname)`. -/
def save (log10 : ℚ → ℚ) (rootName : String) (nDeclSpk nDeclSub : ℕ)
    (s : CalibSession) : CalibSession × Except String SavedDoc :=
  saveas log10 rootName nDeclSpk nDeclSub s.spkname s

/-- C8: `saveas` fails with a fatal error exactly when the re-opened layout's
root element is not `layout`; on that path the session state (in particular
the four validity flags) is unchanged and no document is written; on success
all four flags are cleared; and `save` is `saveas` applied to the original
source path. -/
theorem c8_saveas_errors (log10 : ℚ → ℚ) (rootName fname : String)
    (nspk nsub : ℕ) (s : CalibSession) :
    (rootName ≠ "layout" →
      saveas log10 rootName nspk nsub fname s =
        (s, Except.error (saveas_errmsg rootName))) ∧
    (rootName = "layout" →
      (saveas log10 rootName nspk nsub fname s).1.gainmodified = false ∧
      (saveas log10 rootName nspk nsub fname s).1.levelsrecorded = false ∧
      (saveas log10 rootName nspk nsub fname s).1.calibrated = false ∧
      (saveas log10 rootName nspk nsub fname s).1.calibrated_diff = false ∧
      exceptOk (saveas log10 rootName nspk nsub fname s).2 = true) ∧
    save log10 rootName nspk nsub s =
      saveas log10 rootName nspk nsub s.spkname s := by
  refine ⟨fun h => ?_, fun h => ?_, rfl⟩
  · simp [saveas, h]
  · simp [saveas, h, exceptOk]

/-- Witness for `c8_saveas_errors`: a wrong root element `"scene"` leaves the
sample session untouched and yields the error, while root `"layout"` clears
the `gainmodified` flag. -/
theorem c8_saveas_errors_witness :
    (("scene" : String) ≠ "layout" ∧
      saveas (fun _ => 0) "scene" 1 0 "dest" sampleSession =
        (sampleSession, Except.error (saveas_errmsg "scene"))) ∧
    (saveas (fun _ => 0) "layout" 1 0 "dest" sampleSession).1.gainmodified
      = false :=
  ⟨⟨by decide,
      (c8_saveas_errors (fun _ => 0) "scene" "dest" 1 0 sampleSession).1
        (by decide)⟩,
    ((c8_saveas_errors (fun _ => 0) "layout" "dest" 1 0 sampleSession).2.1
      rfl).1⟩

/-- Session used by the C3 counterexample: two broadband speakers with gain
1, recorded levels 68 and 70 dB, layout-file gains 1. -/
def c3Session : CalibSession :=
  { sampleSession with
    nsp := { sampleRecv with spk := [defaultSpk, defaultSpk] }
    spec := { sampleRecv with spk := [defaultSpk, defaultSpk] }
    levels := [68, 70]
    spkFileGains := [1, 1] }

/-- Counterexample to C3 as stated: with all gains 1 and levels `[68, 70]`
(so `L_min - L_2 = -2`), `saveas` writes the gain attributes
`[20*log10(1), 20*log10(1)] = [0, 0]`, while the claim's formula
`20*log10(gain_k) + L_min - L_k` gives `[0, -2]`.  The model instantiates
`log10` with the constant-zero function, which agrees with the real `log10`
on the only gain value used (1). -/
theorem c3_counterexample :
    Except.map (fun d => d.speakerGains)
        (saveas (fun _ => 0) "layout" 2 0 "dest" c3Session).2 =
      Except.ok [0, 0] ∧
    saveas_deadGains (fun _ => 0) [1, 1] [68, 70] = [0, -2] ∧
    ([0, 0] : List ℚ) ≠ [0, -2] := by
  refine ⟨?_, ?_, by norm_num⟩
  · simp [saveas, spkGainAttr, Except.map, List.range_succ]
  · simp [saveas_deadGains, cppMinInit, List.range_succ]
    norm_num

/-- C3 (amended): `saveas` writes for each declared speaker `k` a gain
attribute equal to `20*log10` of the `spec` receiver's speaker gain at index
`min(k, count-1)` at save time; the vector
`20*log10(file gain_k) + L_min - levels_k` is computed but never used. -/
theorem c3_saveas_gains_amended (log10 : ℚ → ℚ) (nspk nsub : ℕ)
    (fname : String) (s : CalibSession) :
    Except.map (fun d => d.speakerGains)
        (saveas log10 "layout" nspk nsub fname s).2 =
      Except.ok ((List.range nspk).map (fun k =>
        20 * log10 ((s.spec.spk.getD (min k (s.spec.spk.length - 1))
          defaultSpk).gain))) := by
  simp [saveas, spkGainAttr, Except.map]

/-! ## Frequency-response measurement: `get_fresp_` (C4, C5)

Source: `get_fresp_` (calibsession.cc:352-421).  The recording and
`get_bandlevels` are abstracted into an oracle `meas` giving, per speaker
index, the band-frequency grid `vF` and the response curve computed for that
speaker (whose construction from the raw band levels is modelled separately
by `code_fit_curve` below).  The equalizer coefficients produced by
`optim_response` are abstracted away; the stored `eqfreq`/`eqgain`/`eqstages`
fields are kept.
-/

/-- The per-speaker loop of `get_fresp_` (calibsession.cc:366-419), with
`k` the speaker index and `numflt` the stage-count accumulator.  On the first
speaker (while `numflt == 0`) the stage count is computed as
`min(((uint32_t)vF.size() - 1u) / 3u, max_eqstages)`; the `uint32_t`
subtraction is modelled with an explicit `% 2^32`. -/
def fresp_loop (M : ℕ) (meas : ℕ → List ℚ × List ℚ) :
    ℕ → ℕ → List SpkState → ℕ × List SpkState
  | _, numflt, [] => (numflt, [])
  | k, numflt, spk :: rest =>
    let vF := (meas k).1
    let curve := (meas k).2
    let numflt2 := if numflt = 0
      then min ((vF.length % 2 ^ 32 + (2 ^ 32 - 1)) % 2 ^ 32 / 3) M
      else numflt
    let r := fresp_loop M meas (k + 1) numflt2 rest
    (r.1,
      { spk with eqfreq := vF, eqgain := curve, eqstages := numflt2 } :: r.2)

/-- `get_fresp_` (calibsession.cc:352-421): return 0 immediately when
`max_eqstages == 0` (before touching any speaker state), otherwise run the
measurement loop over all speakers and return the fitted stage count. -/
def get_fresp (M : ℕ) (meas : ℕ → List ℚ × List ℚ)
    (spks : List SpkState) : ℕ × List SpkState :=
  if M = 0 then (0, spks) else fresp_loop M meas 0 0 spks

/-- When every speaker's band grid has the same length `B`, the loop's final
stage count is the stage count of its entry accumulator, or the computed
bound if the accumulator is 0. -/
theorem fresp_loop_numflt (M B : ℕ) (meas : ℕ → List ℚ × List ℚ)
    (hB : ∀ k, ((meas k).1).length = B) :
    ∀ (spks : List SpkState) (k numflt : ℕ), spks ≠ [] →
      (fresp_loop M meas k numflt spks).1 =
        if numflt = 0
          then min ((B % 2 ^ 32 + (2 ^ 32 - 1)) % 2 ^ 32 / 3) M
          else numflt := by
  intro spks
  induction spks with
  | nil => intro k numflt h; exact absurd rfl h
  | cons spk rest ih =>
    intro k numflt _
    rcases rest with _ | ⟨spk2, rest2⟩
    · simp only [fresp_loop, hB k]
    · have hr := ih (k + 1)
        (if numflt = 0
          then min ((B % 2 ^ 32 + (2 ^ 32 - 1)) % 2 ^ 32 / 3) M
          else numflt) (by simp)
      simp only [fresp_loop, hB k] at hr ⊢
      rw [hr]
      by_cases h0 : numflt = 0
      · simp [h0]
      · simp [h0]

/-- C4: `get_fresp_` with `max_eqstages == 0` returns zero stages without
touching any speaker state; and for a nonempty speaker list whose measured
band grids all have `B` bands (`1 ≤ B < 2^32`), the fitted stage count is
exactly `min((B-1)/3, M)` (integer division) — in particular it never
exceeds that bound. -/
theorem c4_eq_stage_bound (M B : ℕ) (meas : ℕ → List ℚ × List ℚ)
    (spks : List SpkState) :
    get_fresp 0 meas spks = (0, spks) ∧
    (spks ≠ [] → 1 ≤ B → B < 2 ^ 32 → (∀ k, ((meas k).1).length = B) →
      (get_fresp M meas spks).1 = min ((B - 1) / 3) M ∧
      (get_fresp M meas spks).1 ≤ min ((B - 1) / 3) M) := by
  constructor
  · simp [get_fresp]
  · intro hne hB1 hB2 hB
    have hmod : (B % 2 ^ 32 + (2 ^ 32 - 1)) % 2 ^ 32 = B - 1 := by
      have h32 : (2 : ℕ) ^ 32 = 4294967296 := by norm_num
      rw [h32] at hB2 ⊢
      omega
    have hmain : (get_fresp M meas spks).1 = min ((B - 1) / 3) M := by
      unfold get_fresp
      by_cases hM : M = 0
      · simp [hM]
      · rw [if_neg hM, fresp_loop_numflt M B meas hB spks 0 0 hne,
          if_pos rfl, hmod]
    exact ⟨hmain, le_of_eq hmain⟩

/-- Witness for `c4_eq_stage_bound`: one speaker, a 7-band grid and
`max_eqstages = 2` give `min((7-1)/3, 2) = 2` stages. -/
theorem c4_eq_stage_bound_witness :
    (([defaultSpk] : List SpkState) ≠ [] ∧ 1 ≤ 7 ∧ 7 < 2 ^ 32 ∧
      (∀ k : ℕ,
        (((fun _ => ([1, 2, 3, 4, 5, 6, 7], [])) k :
          List ℚ × List ℚ)).1.length = 7)) ∧
    (get_fresp 2 (fun _ => ([1, 2, 3, 4, 5, 6, 7], []))
        [defaultSpk]).1 = min ((7 - 1) / 3) 2 :=
  ⟨⟨by decide, by decide, by decide, fun _ => rfl⟩,
    ((c4_eq_stage_bound 2 7 (fun _ => ([1, 2, 3, 4, 5, 6, 7], []))
      [defaultSpk]).2 (by decide) (by decide) (by decide)
      (fun _ => rfl)).1⟩

/-! ## The response curve handed to the equalizer fit (C5)

Source: the band-level processing inside `get_fresp_`
(calibsession.cc:375-408).  `p10f` models `x ↦ powf(10, x)` and `log10f`
models `log10f`; per-band levels `l` are converted to the power domain as
`p10f(0.1*l)` and back as `10*log10f(l)`.
-/

/-- The channel-accumulation step (calibsession.cc:387-389):
`for(k < vL.size()) vLmean[k] += vL[k]`; entries of `acc` beyond the length
of `vL` are untouched. -/
def addInto (acc vL : List ℚ) : List ℚ :=
  List.zipWith (fun a b => a + b) acc vL ++ acc.drop vL.length

/-- The power-domain sum over the measurement channels
(calibsession.cc:377-390): each channel's band levels are converted to the
power domain; the first channel initializes the accumulator
(`if(vLmean.empty()) vLmean = vL`), later channels are added bandwise. -/
def chanPowSum (p10f : ℚ → ℚ) (chans : List (List ℚ)) : List ℚ :=
  chans.foldl (fun acc c =>
    let vL := c.map (fun l => p10f (0.1 * l))
    if acc = [] then vL else addInto acc vL) []

/-- The channel mean in the log domain (calibsession.cc:391-394):
`l /= recbuf.size(); l = 10*log10f(l)`.  `recbuf.size()` is the number of
measurement channels plus one (the reference buffer), although the sum runs
over the measurement channels only. -/
def measMean (p10f log10f : ℚ → ℚ) (chans : List (List ℚ)) : List ℚ :=
  (chanPowSum p10f chans).map
    (fun l => 10 * log10f (l / ((chans.length : ℚ) + 1)))

/-- The curve handed to `optim_response` and stored in `eqgain`
(calibsession.cc:401-408): subtract the channel mean from the reference band
levels (`vLmean[ch] = vLref[ch] - vLmean[ch]`, the tail of a longer mean
surviving untouched), then subtract the vector's maximum (initialised with
its last element, `vLmean.back()`). -/
def code_fit_curve (p10f log10f : ℚ → ℚ) (chans : List (List ℚ))
    (ref : List ℚ) : List ℚ :=
  let vLmean := measMean p10f log10f chans
  let d := List.zipWith (fun r m => r - m) ref vLmean ++
    vLmean.drop ref.length
  let m := d.foldl max (d.getLastD 0)
  d.map (fun x => x - m)

/-- The curve description asserted by the claim, built from the spec's words:
average the band energies across the measurement channels (divide by the
channel count), subtract the reference band levels from the measurement,
normalise that relative curve by subtracting its own maximum, and hand the
negative of the result to the fit. -/
def claimC5_curve (p10f log10f : ℚ → ℚ) (chans : List (List ℚ))
    (ref : List ℚ) : List ℚ :=
  let meas := (chanPowSum p10f chans).map
    (fun l => 10 * log10f (l / (chans.length : ℚ)))
  let r := List.zipWith (fun m rf => m - rf) meas ref
  let n := r.map (fun x => x - r.foldl max (r.getLastD 0))
  n.map (fun x => -x)

/-- The amended description: same power-domain mean as the source (divided by
the measurement-channel count plus one), relative curve equal to the
negative of measurement-minus-reference, normalised by subtracting its own
maximum, handed to the fit directly. -/
def amendC5_curve (p10f log10f : ℚ → ℚ) (chans : List (List ℚ))
    (ref : List ℚ) : List ℚ :=
  let meas := measMean p10f log10f chans
  let rel := List.zipWith (fun m rf => m - rf) meas ref
  let neg := rel.map (fun x => -x)
  neg.map (fun x => x - neg.foldl max (neg.getLastD 0))

theorem zipWith_sub_flip (xs ys : List ℚ) :
    List.zipWith (fun a b => a - b) xs ys =
      (List.zipWith (fun b a => b - a) ys xs).map (fun x => -x) := by
  induction xs generalizing ys with
  | nil => cases ys <;> rfl
  | cons x xs ih =>
    cases ys with
    | nil => rfl
    | cons y ys => simp [ih ys, neg_sub]

/-- Counterexample to C5 as stated: one measurement channel with band levels
`[0, 10]` and reference levels `[0, 0]` (with trivial power/log conversion
functions): the source hands `[0, -5]` to the fit (reference minus
measurement with the sum divided by 2, shifted by its own maximum), while
the claim's pipeline (divide by the channel count 1, measurement minus
reference, shift by maximum, negate) yields `[10, 0]`. -/
theorem c5_counterexample :
    code_fit_curve (fun x => x) (fun x => x) [[0, 10]] [0, 0] = [0, -5] ∧
    claimC5_curve (fun x => x) (fun x => x) [[0, 10]] [0, 0] = [10, 0] ∧
    ([0, -5] : List ℚ) ≠ [10, 0] := by
  refine ⟨?_, ?_, by norm_num⟩
  · simp [code_fit_curve, measMean, chanPowSum, addInto]
    norm_num
  · simp [claimC5_curve, chanPowSum, addInto]
    norm_num

/-- C5 (amended): the curve `get_fresp_` hands to the equalizer fit is the
reference band levels minus the channel mean (whose divisor is the number of
measurement channels plus one), normalised by subtracting its own maximum;
equivalently, when the mean and the reference have the same band count, it
is the negative of the measurement-minus-reference curve normalised by
subtracting its own maximum, and this curve is handed to the fit directly
(not negated again). -/
theorem c5_fit_curve_amended (p10f log10f : ℚ → ℚ) (chans : List (List ℚ))
    (ref : List ℚ)
    (hlen : (measMean p10f log10f chans).length = ref.length) :
    code_fit_curve p10f log10f chans ref =
      amendC5_curve p10f log10f chans ref := by
  unfold code_fit_curve amendC5_curve
  simp only
  rw [← hlen, List.drop_length, List.append_nil, zipWith_sub_flip]

/-- Witness for `c5_fit_curve_amended` at the counterexample's input, where
the mean and reference both have two bands. -/
theorem c5_fit_curve_amended_witness :
    (measMean (fun x => x) (fun x => x) [[0, 10]]).length =
      ([0, 0] : List ℚ).length ∧
    code_fit_curve (fun x => x) (fun x => x) [[0, 10]] [0, 0] =
      amendC5_curve (fun x => x) (fun x => x) [[0, 10]] [0, 0] :=
  ⟨by simp [measMean, chanPowSum],
    c5_fit_curve_amended (fun x => x) (fun x => x) [[0, 10]] [0, 0]
      (by simp [measMean, chanPowSum])⟩

end Tascar
